import Mathlib

/-!
Verification of the Trend Collection & Normalization Pipeline
(`src/scripts/collect_google_trends.py`) against its specification.

Shallow embedding conventions:
* Python strings are modelled as `List Char` (sequences of code points);
  error-message text, which only ever flows through ASCII-level substring
  checks, is modelled as `List Nat` (raw code points).
* Dates are modelled as `Int` day ordinals: Python `date` values are totally
  ordered and the pipeline only compares and subtracts them.
* The pytrends provider and the Supabase sink are external collaborators:
  fetch outcomes are supplied as explicit `Except` values per attempt, and
  uploads accumulate into run statistics instead of performing I/O.
-/

/-! ## Configuration constants (module-level constants of the script) -/

def DELAY_BETWEEN_REQUESTS : Nat := 60

def DELAY_ON_ERROR : Nat := 60

def DELAY_ON_RATE_LIMIT : Nat := 300

def MAX_RETRIES : Nat := 5

def BATCH_SIZE : Nat := 5

def EXCLUDE_RECENT_DAYS : Int := 3

def EXCLUDE_PARTIAL_DATA : Bool := true

/-- The fixed catalog of 21 tracked disease search terms (`TRACKED_DISEASES`). -/
def TRACKED_DISEASES : List String :=
  ["influenza", "H3N2", "covid", "measles", "cholera", "ebola", "marburg virus",
   "dengue fever", "yellow fever", "zika virus", "plague", "mpox", "meningitis",
   "norovirus", "RSV virus", "SARS", "MERS", "bird flu",
   "hand foot mouth disease", "polio", "hepatitis A"]

/-! ## Region name normalization (`normalize_region_name`) -/

/-- Whitespace characters removed by Python's `str.strip()` (the ASCII ones;
Unicode space code points never occur in the provider's region names). -/
def pyWhitespace (c : Char) : Bool :=
  c = ' ' || c = '\t' || c = '\n' || c = '\r' || c = '\x0b' || c = '\x0c'

/-- Python's `str.strip()`: drop leading and trailing whitespace. -/
def pyStrip (s : List Char) : List Char :=
  (((s.dropWhile pyWhitespace).reverse.dropWhile pyWhitespace)).reverse

/-- The `mappings` dict of `normalize_region_name`, in source order. -/
def REGION_MAPPINGS : List (List Char × List Char) :=
  [("United States".toList, "United States".toList),
   ("US".toList, "United States".toList),
   ("USA".toList, "United States".toList),
   ("United Kingdom".toList, "United Kingdom".toList),
   ("UK".toList, "United Kingdom".toList),
   ("Congo - Kinshasa".toList, "Democratic Republic of Congo".toList),
   ("Congo - Brazzaville".toList, "Congo".toList),
   ("DRC".toList, "Democratic Republic of Congo".toList),
   ("Myanmar (Burma)".toList, "Myanmar".toList),
   ("Burma".toList, "Myanmar".toList)]

/-- `normalize_region_name`: strip, look the result up in the alias table,
fall back to the stripped input unchanged. -/
def normalize_region_name (region : List Char) : List Char :=
  let r := pyStrip region
  match REGION_MAPPINGS.lookup r with
  | some canonical => canonical
  | none => r

/-! ### Lemmas about `pyStrip` -/

theorem dropWhile_of_append_fixed (p : α → Bool) (u v : List α)
    (h : (u ++ v).dropWhile p = u ++ v) : u.dropWhile p = u := by
  cases u with
  | nil => simp
  | cons x xs =>
    by_cases hpx : p x
    · exfalso
      rw [List.cons_append, List.dropWhile_cons, if_pos hpx] at h
      have hlen := (List.dropWhile_suffix (l := xs ++ v) p).length_le
      rw [h] at hlen
      simp at hlen
    · simp [List.dropWhile_cons, hpx]

theorem pyStrip_idem (s : List Char) : pyStrip (pyStrip s) = pyStrip s := by
  have hy : (s.dropWhile pyWhitespace).dropWhile pyWhitespace
      = s.dropWhile pyWhitespace := List.dropWhile_idempotent _ _
  obtain ⟨w, hw⟩ := List.rdropWhile_prefix pyWhitespace (s.dropWhile pyWhitespace)
  have hx : (List.rdropWhile pyWhitespace (s.dropWhile pyWhitespace)).dropWhile pyWhitespace
      = List.rdropWhile pyWhitespace (s.dropWhile pyWhitespace) := by
    apply dropWhile_of_append_fixed _ _ w
    rw [hw]; exact hy
  show List.rdropWhile pyWhitespace
      ((List.rdropWhile pyWhitespace (s.dropWhile pyWhitespace)).dropWhile pyWhitespace)
      = List.rdropWhile pyWhitespace (s.dropWhile pyWhitespace)
  rw [hx]
  exact List.rdropWhile_idempotent _ _

/-- A successful association-list lookup yields a pair of the list. -/
theorem lookup_mem {α β : Type} [BEq α] [LawfulBEq α]
    (l : List (α × β)) (a : α) (b : β) (h : l.lookup a = some b) : (a, b) ∈ l := by
  induction l with
  | nil => simp [List.lookup] at h
  | cons kv l ih =>
    cases kv with
    | mk k v =>
      simp only [List.lookup] at h
      split at h
      next heq =>
        have ha : a = k := eq_of_beq heq
        have hb : v = b := by injection h
        subst ha; subst hb
        exact List.mem_cons_self _ _
      next heq =>
        exact List.mem_cons_of_mem _ (ih h)

/-- Unfolding equation for `normalize_region_name`. -/
theorem normalize_region_name_eq (x : List Char) :
    normalize_region_name x =
      match REGION_MAPPINGS.lookup (pyStrip x) with
      | some canonical => canonical
      | none => pyStrip x := rfl

/-- Every canonical (right-hand) value of the alias table is a fixed point of
`normalize_region_name`. -/
theorem canonical_fixed :
    ∀ q ∈ REGION_MAPPINGS, normalize_region_name q.2 = q.2 := by decide

/--
C5. The region normalizer is a pure total function on strings: each alias of
the lookup table maps to its canonical name; a string whose stripped form is
not a key of the table maps to its stripped form; and the normalizer is
idempotent on every string.
-/
theorem normalize_region_name_spec (a c s x : List Char)
    (h1 : (a, c) ∈ REGION_MAPPINGS)
    (h2 : REGION_MAPPINGS.lookup (pyStrip s) = none) :
    normalize_region_name a = c ∧
    normalize_region_name s = pyStrip s ∧
    normalize_region_name (normalize_region_name x) = normalize_region_name x := by
  refine ⟨?_, ?_, ?_⟩
  · fin_cases h1 <;> decide
  · rw [normalize_region_name_eq, h2]
  · cases h : REGION_MAPPINGS.lookup (pyStrip x) with
    | none =>
      have hx : normalize_region_name x = pyStrip x := by
        rw [normalize_region_name_eq, h]
      rw [hx, normalize_region_name_eq, pyStrip_idem, h]
    | some canonical =>
      have hx : normalize_region_name x = canonical := by
        rw [normalize_region_name_eq, h]
      rw [hx]
      exact canonical_fixed (pyStrip x, canonical) (lookup_mem _ _ _ h)

/-- Witness for C5 at concrete inputs: the alias "US", the unknown region
" Kenya ", and idempotence at "  UK ". -/
theorem normalize_region_name_spec_witness :
    normalize_region_name "US".toList = "United States".toList ∧
    normalize_region_name " Kenya ".toList = pyStrip " Kenya ".toList ∧
    normalize_region_name (normalize_region_name "  UK ".toList) =
      normalize_region_name "  UK ".toList :=
  normalize_region_name_spec "US".toList "United States".toList
    " Kenya ".toList "  UK ".toList (by decide) (by decide)

/-! ## Record types (§3 data model, as built by the script) -/

/-- A time-series record as appended by the collection loops:
`{"disease": ..., "date": ..., "interest_value": ...}`. -/
structure TSRecord where
  disease : String
  date : Int
  interest_value : Int
deriving DecidableEq

/-- A region record as appended by the collection loops:
`{"disease", "region", "region_code", "popularity_score", "date"}`. -/
structure RegRecord where
  disease : String
  region : List Char
  region_code : Option String
  popularity_score : Int
  date : Int
deriving DecidableEq

/-! ## Data quality validation (`validate_data_quality`) -/

/-- The two issue strings `validate_data_quality` can collect, as tags (the
region issue keeps the region count interpolated into its message). -/
inductive QualityIssue where
  | allZero
  | tooFewRegions (count : Nat)
deriving DecidableEq

/-- The `issues` list built by `validate_data_quality`: the all-zero check is
guarded by the series being non-empty (`if time_series_records:`), the region
check fires when fewer than 10 region records were collected. -/
def dataQualityIssues (time_series_records : List TSRecord)
    (region_records : List RegRecord) : List QualityIssue :=
  (if time_series_records ≠ [] ∧
      time_series_records.all (fun r => r.interest_value == 0)
   then [QualityIssue.allZero] else []) ++
  (if region_records.length < 10
   then [QualityIssue.tooFewRegions region_records.length] else [])

/-- `validate_data_quality` returns `True` when no issue was collected. -/
def validate_data_quality (time_series_records : List TSRecord)
    (region_records : List RegRecord) : Bool :=
  (dataQualityIssues time_series_records region_records).isEmpty

/-- A concrete non-all-zero series with values `[5, 0, 12]` (§8 of the spec). -/
def series_5_0_12 : List TSRecord :=
  [⟨"covid", 0, 5⟩, ⟨"covid", 1, 0⟩, ⟨"covid", 2, 12⟩]

/--
C6 (counterexample). The spec's §8 quantification "for all term series where
every value is 0, validate includes the all-zero issue" fails at the empty
series: every value of the empty series is (vacuously) zero, yet
`validate_data_quality` does not report the all-zero issue for it.
-/
theorem validate_all_zero_empty_counterexample :
    (∀ r ∈ ([] : List TSRecord), r.interest_value = 0) ∧
    QualityIssue.allZero ∉ dataQualityIssues [] [] := by
  constructor
  · intro r hr
    simp at hr
  · decide

/--
C6 (amended). The validator reports the all-zero issue exactly for non-empty
series all of whose interest values are zero; in particular the series
`[5, 0, 12]` is not flagged, and the empty series is not flagged either.
-/
theorem validate_all_zero_iff (ts : List TSRecord) (regions : List RegRecord) :
    (QualityIssue.allZero ∈ dataQualityIssues ts regions ↔
      ts ≠ [] ∧ ∀ r ∈ ts, r.interest_value = 0) ∧
    QualityIssue.allZero ∉ dataQualityIssues series_5_0_12 [] := by
  constructor
  · unfold dataQualityIssues
    constructor
    · intro hmem
      rw [List.mem_append] at hmem
      rcases hmem with hmem | hmem
      · split at hmem
        next hcond =>
          refine ⟨hcond.1, ?_⟩
          intro r hr
          have := List.all_eq_true.mp hcond.2 r hr
          exact beq_iff_eq.mp this
        next => simp at hmem
      · split at hmem <;> simp at hmem
    · intro ⟨hne, hall⟩
      rw [List.mem_append]
      left
      rw [if_pos ⟨hne, List.all_eq_true.mpr fun r hr => beq_iff_eq.mpr (hall r hr)⟩]
      exact List.mem_singleton_self _
  · decide

/-! ## Time-series collection and partial-day filtering (§4.4) -/

/-- One row of the provider's interest-over-time frame in individual mode:
its date, its `isPartial` flag, and the interest value of the queried term. -/
structure SeriesRow where
  date : Int
  isPartial : Bool
  value : Int
deriving DecidableEq

/-- One row of the interest-over-time frame in batch (comparative) mode: its
date, its `isPartial` flag, and the column values keyed by disease name. -/
structure BatchRow where
  date : Int
  isPartial : Bool
  values : List (String × Int)
deriving DecidableEq

/-- The row loop of `collect_all_data_for_disease` (individual mode): rows
dated strictly after the cutoff `today - exclDays` are skipped when exclusion
is enabled, then partial rows are skipped, then a record is appended. -/
def collect_series_points (excludeP : Bool) (today exclDays : Int)
    (disease : String) : List SeriesRow → List TSRecord
  | [] => []
  | r :: rs =>
    if excludeP ∧ r.date > today - exclDays then
      collect_series_points excludeP today exclDays disease rs
    else if excludeP ∧ r.isPartial then
      collect_series_points excludeP today exclDays disease rs
    else
      ⟨disease, r.date, r.value⟩ :: collect_series_points excludeP today exclDays disease rs

/-- The row loop of `collect_data_for_batch` restricted to one disease of the
batch: same cutoff and partial-row skips, then the disease's column value is
appended when the disease is among the frame's columns. -/
def collect_batch_series_for (excludeP : Bool) (today exclDays : Int)
    (disease : String) : List BatchRow → List TSRecord
  | [] => []
  | r :: rs =>
    if excludeP ∧ r.date > today - exclDays then
      collect_batch_series_for excludeP today exclDays disease rs
    else if excludeP ∧ r.isPartial then
      collect_batch_series_for excludeP today exclDays disease rs
    else
      match r.values.lookup disease with
      | some v => ⟨disease, r.date, v⟩ :: collect_batch_series_for excludeP today exclDays disease rs
      | none => collect_batch_series_for excludeP today exclDays disease rs

/--
C4. With partial-day exclusion enabled, both collection modes keep exactly
the rows dated at or before the cutoff `today - exclDays` that are not marked
partial: the individual-mode loop equals a filter of the rows by that
predicate followed by record construction, and the batch-mode loop equals the
same filter followed by extraction of the disease's column where present. So
every point strictly after the cutoff is dropped before validation and
storage, and every point at or before the cutoff and not marked partial is
kept.
-/
theorem partial_day_filter_spec (today exclDays : Int) (disease : String)
    (rows : List SeriesRow) (brows : List BatchRow) :
    collect_series_points true today exclDays disease rows =
      (rows.filter (fun r => decide (r.date ≤ today - exclDays) && !r.isPartial)).map
        (fun r => ⟨disease, r.date, r.value⟩) ∧
    collect_batch_series_for true today exclDays disease brows =
      (brows.filter (fun r => decide (r.date ≤ today - exclDays) && !r.isPartial)).filterMap
        (fun r => (r.values.lookup disease).map (fun v => ⟨disease, r.date, v⟩)) := by
  constructor
  · induction rows with
    | nil => rfl
    | cons r rs ih =>
      rw [collect_series_points, List.filter_cons]
      by_cases hd : r.date > today - exclDays
      · rw [if_pos ⟨rfl, hd⟩]
        have : (decide (r.date ≤ today - exclDays) && !r.isPartial) = false := by
          have : ¬ r.date ≤ today - exclDays := by omega
          simp [this]
        rw [this, if_neg (by simp)]
        exact ih
      · rw [if_neg (by simp [hd])]
        by_cases hp : r.isPartial
        · rw [if_pos ⟨rfl, hp⟩]
          have : (decide (r.date ≤ today - exclDays) && !r.isPartial) = false := by
            simp [hp]
          rw [this, if_neg (by simp)]
          exact ih
        · rw [if_neg (by simp [hp])]
          have : (decide (r.date ≤ today - exclDays) && !r.isPartial) = true := by
            simp [hp]; omega
          rw [this, if_pos rfl, List.map_cons]
          exact congrArg _ ih
  · induction brows with
    | nil => rfl
    | cons r rs ih =>
      rw [collect_batch_series_for, List.filter_cons]
      by_cases hd : r.date > today - exclDays
      · rw [if_pos ⟨rfl, hd⟩]
        have : (decide (r.date ≤ today - exclDays) && !r.isPartial) = false := by
          have : ¬ r.date ≤ today - exclDays := by omega
          simp [this]
        rw [this, if_neg (by simp)]
        exact ih
      · rw [if_neg (by simp [hd])]
        by_cases hp : r.isPartial
        · rw [if_pos ⟨rfl, hp⟩]
          have : (decide (r.date ≤ today - exclDays) && !r.isPartial) = false := by
            simp [hp]
          rw [this, if_neg (by simp)]
          exact ih
        · rw [if_neg (by simp [hp])]
          have : (decide (r.date ≤ today - exclDays) && !r.isPartial) = true := by
            simp [hp]; omega
          rw [this, if_pos rfl, List.filterMap_cons]
          cases hv : r.values.lookup disease with
          | none => simpa using ih
          | some v => simpa using ih

/-! ## Batch partitioning (`for i in range(0, len(TRACKED_DISEASES), BATCH_SIZE)`) -/

/-- Slicing loop with explicit fuel (the list's length bounds the number of
iterations whenever the step is positive). -/
def batchesGo (b : Nat) : Nat → List α → List (List α)
  | 0, _ => []
  | _, [] => []
  | fuel + 1, x :: xs => ((x :: xs).take b) :: batchesGo b fuel ((x :: xs).drop b)

/-- The batch-mode partition of a catalog: `l[i : i+b]` for
`i in range(0, len(l), b)`. -/
def batchesOf (l : List α) (b : Nat) : List (List α) :=
  batchesGo b l.length l

/--
C3. In batch mode with the 21-term catalog and batch size 5, the planner
produces exactly 5 query units of sizes 5, 5, 5, 5, 1 whose concatenation in
order is the original catalog.
-/
theorem batch_partition_spec :
    (batchesOf TRACKED_DISEASES BATCH_SIZE).length = 5 ∧
    (batchesOf TRACKED_DISEASES BATCH_SIZE).map List.length = [5, 5, 5, 5, 1] ∧
    (batchesOf TRACKED_DISEASES BATCH_SIZE).flatten = TRACKED_DISEASES := by
  decide

/-- Concatenating the batches of any list recovers it, for a positive batch
size (the upload chunking below relies on this with chunk size 100). -/
theorem batchesGo_join (b : Nat) (hb : 0 < b) :
    ∀ (fuel : Nat) (l : List α), l.length ≤ fuel → (batchesGo b fuel l).flatten = l := by
  intro fuel
  induction fuel with
  | zero =>
    intro l hl
    have : l = [] := List.eq_nil_of_length_eq_zero (Nat.le_zero.mp hl)
    subst this
    rfl
  | succ fuel ih =>
    intro l hl
    cases l with
    | nil => rfl
    | cons x xs =>
      rw [batchesGo, List.flatten_cons]
      have hlen : ((x :: xs).drop b).length ≤ fuel := by
        rw [List.length_drop, List.length_cons]
        rw [List.length_cons] at hl
        omega
      rw [ih _ hlen]
      exact List.take_append_drop b (x :: xs)

theorem batchesOf_join (l : List α) (b : Nat) (hb : 0 < b) :
    (batchesOf l b).flatten = l :=
  batchesGo_join b hb l.length l le_rfl

/-! ## Error classification (`is_rate_limit`) -/

/-- Python's `str.lower()` on one code point, restricted to the ASCII case
mapping. Unicode full case mapping touches no other code point that could
create or destroy an occurrence of the three rate-limit signatures, so this
restriction is faithful for the classification property below. -/
def lowerChar (c : Nat) : Nat :=
  if 65 ≤ c ∧ c ≤ 90 then c + 32 else c

/-- `error_msg.lower()`: code-point-wise lowering. -/
def lowerStr (s : List Nat) : List Nat :=
  s.map lowerChar

/-- Does `s` start with `pat`? (helper for the substring test). -/
def startsWithN : List Nat → List Nat → Bool
  | [], _ => true
  | _ :: _, [] => false
  | a :: as, b :: bs => a == b && startsWithN as bs

/-- Python's `pat in s` on strings: contiguous-substring membership. -/
def substrN (pat : List Nat) : List Nat → Bool
  | [] => startsWithN pat []
  | b :: bs => startsWithN pat (b :: bs) || substrN pat bs

/-- The code points of the signature `"429"`. -/
def pat429 : List Nat := "429".toList.map Char.toNat

/-- The code points of the signature `"rate limit"`. -/
def patRateLimit : List Nat := "rate limit".toList.map Char.toNat

/-- The code points of the signature `"too many requests"`. -/
def patTooMany : List Nat := "too many requests".toList.map Char.toNat

/-- The classifier of the two retry handlers: `"429" in error_msg or
"rate limit" in error_msg.lower() or "too many requests" in
error_msg.lower()` (the same expression in individual and batch mode). -/
def is_rate_limit (error_msg : List Nat) : Bool :=
  substrN pat429 error_msg || substrN patRateLimit (lowerStr error_msg) ||
    substrN patTooMany (lowerStr error_msg)

/-- Case-insensitive substring match, following the spec's words: the pattern
occurs in the message once both are lowercased. -/
def ciSubstrSpec (pat s : List Nat) : Bool :=
  substrN (lowerStr pat) (lowerStr s)

/-- Code points fixed by lowering and reached by lowering only from
themselves (the digits of `"429"` qualify). -/
def UnaffectedByLower (a : Nat) : Prop :=
  lowerChar a = a ∧ ∀ d, lowerChar d = a → d = a

theorem startsWithN_lower (pat : List Nat) (hp : ∀ a ∈ pat, UnaffectedByLower a) :
    ∀ s, startsWithN pat (lowerStr s) = startsWithN pat s := by
  induction pat with
  | nil => intro s; cases s <;> rfl
  | cons a as ih =>
    intro s
    cases s with
    | nil => rfl
    | cons b bs =>
      show (a == lowerChar b && startsWithN as (lowerStr bs)) = (a == b && startsWithN as bs)
      have ha := hp a (List.mem_cons_self a as)
      have hbeq : (a == lowerChar b) = (a == b) := by
        by_cases hab : a = b
        · subst hab
          rw [ha.1]
        · have : a ≠ lowerChar b := by
            intro hc
            exact hab (ha.2 b hc.symm).symm
          simp [hab, this]
      rw [hbeq, ih (fun x hx => hp x (List.mem_cons_of_mem a hx)) bs]

theorem substrN_lower (pat : List Nat) (hp : ∀ a ∈ pat, UnaffectedByLower a) :
    ∀ s, substrN pat (lowerStr s) = substrN pat s := by
  intro s
  induction s with
  | nil => rfl
  | cons b bs ih =>
    show (startsWithN pat (lowerStr (b :: bs)) || substrN pat (lowerStr bs)) = _
    rw [startsWithN_lower pat hp (b :: bs), ih]
    rfl

/-- The digits of `"429"` are unaffected by lowering. -/
theorem pat429_unaffected : ∀ a ∈ pat429, UnaffectedByLower a := by
  intro a ha
  have hval : a = 52 ∨ a = 50 ∨ a = 57 := by
    simp [pat429] at ha
    omega
  constructor
  · rcases hval with rfl | rfl | rfl <;> decide
  · intro d hd
    rcases hval with rfl | rfl | rfl <;>
      (unfold lowerChar at hd; split at hd <;> omega)

/--
C7. An error is classified as rate-limited exactly when its message contains
"429", "rate limit", or "too many requests" as a case-insensitive substring:
the classifier of the retry handlers agrees with the spec's case-insensitive
containment on every message.
-/
theorem is_rate_limit_spec (error_msg : List Nat) :
    is_rate_limit error_msg =
      (ciSubstrSpec pat429 error_msg || ciSubstrSpec patRateLimit error_msg ||
        ciSubstrSpec patTooMany error_msg) := by
  unfold is_rate_limit ciSubstrSpec
  have h429 : lowerStr pat429 = pat429 := by decide
  have hrl : lowerStr patRateLimit = patRateLimit := by decide
  have htm : lowerStr patTooMany = patTooMany := by decide
  rw [h429, hrl, htm, substrN_lower pat429 pat429_unaffected]

/-! ## Retry/backoff controller (§4.3, the `while retries < MAX_RETRIES` loops) -/

/-- Terminal state of one query unit's retry loop: the unit either succeeded
(on its `attempts`-th attempt, after sleeping the listed `delays`) or
exhausted its retries. -/
inductive RetryResult (α : Type) where
  | succeeded (attempts : Nat) (delays : List Nat) (value : α)
  | exhausted (attempts : Nat) (delays : List Nat)
deriving DecidableEq

/-- The delay computed in the exception handler: exponential backoff
`rateDelay * 2 ^ (retries - 1)` on a rate-limited error, the fixed
`errDelay` otherwise (`retries` is the just-incremented counter). -/
def retryDelay (rateDelay errDelay : Nat) (rateLimited : Bool) (retries : Nat) : Nat :=
  if rateLimited then rateDelay * 2 ^ (retries - 1) else errDelay

/-- One run of the `while retries < maxRetries and not success` loop.
`out k` is the outcome of the attempt made with `retries = k` failures so
far; `fuel` counts the iterations the loop guard still allows, so the entry
point passes `fuel = maxRetries`. The fuel-zero case is reached only when
`maxRetries = 0`, where the loop body never runs; we report it as an
exhaustion with zero attempts. -/
def retryGo (maxRetries rateDelay errDelay : Nat) (out : Nat → Except (List Nat) α) :
    Nat → Nat → List Nat → RetryResult α
  | retries, 0, ds => RetryResult.exhausted retries ds.reverse
  | retries, fuel + 1, ds =>
    match out retries with
    | Except.ok a => RetryResult.succeeded (retries + 1) ds.reverse a
    | Except.error e =>
      if retries + 1 < maxRetries then
        retryGo maxRetries rateDelay errDelay out (retries + 1) fuel
          (retryDelay rateDelay errDelay (is_rate_limit e) (retries + 1) :: ds)
      else
        RetryResult.exhausted (retries + 1) ds.reverse

/-- The retry loop of one query unit, entered with `retries = 0`. -/
def retryRun (maxRetries rateDelay errDelay : Nat)
    (out : Nat → Except (List Nat) α) : RetryResult α :=
  retryGo maxRetries rateDelay errDelay out 0 maxRetries []

/-! ## Run statistics and orchestration (`collect_all_trends`) -/

/-- The run counters of `collect_all_trends`. -/
structure RunStats where
  successful : Nat
  failed : Nat
  total_records : Nat
  total_region_records : Nat
deriving DecidableEq

def RunStats.init : RunStats := ⟨0, 0, 0, 0⟩

/-- Stats update for one individual-mode unit: a succeeded unit uploads
whatever records it has and increments `successful` whether or not any data
came back; an exhausted unit increments `failed` by one. -/
def individualUnitStep (st : RunStats) :
    RetryResult (List TSRecord × List RegRecord) → RunStats
  | RetryResult.succeeded _ _ (ts, regs) =>
    { st with
      successful := st.successful + 1
      total_records := st.total_records + ts.length
      total_region_records := st.total_region_records + regs.length }
  | RetryResult.exhausted _ _ => { st with failed := st.failed + 1 }

/-- The per-batch data of `collect_data_for_batch`: the time-series and
region dicts keyed by disease (`dict.get(disease, [])` on retrieval). -/
def BatchData : Type := List (String × (List TSRecord × List RegRecord))

instance : DecidableEq BatchData := by
  unfold BatchData
  infer_instance

/-- Retrieval from the batch dicts: `dict.get(disease, [])`. -/
def batchGet (data : BatchData) (disease : String) : List TSRecord × List RegRecord :=
  (data.lookup disease).getD ([], [])

/-- The per-disease upload step inside a succeeded batch unit: each disease
of the batch uploads its records and counts as successful when it produced
time-series or region data. -/
def batchDiseaseStep (data : BatchData) (st : RunStats) (disease : String) : RunStats :=
  let p := batchGet data disease
  let st1 := if p.1 ≠ [] then { st with total_records := st.total_records + p.1.length } else st
  let st2 := if p.2 ≠ [] then
      { st1 with total_region_records := st1.total_region_records + p.2.length } else st1
  if p.1 ≠ [] ∨ p.2 ≠ [] then { st2 with successful := st2.successful + 1 } else st2

/-- Stats update for one batch-mode unit: a succeeded unit runs the upload
loop over its diseases; an exhausted unit adds the whole batch to `failed`
(`failed += len(batch)`). -/
def batchUnitStep (batch : List String) (st : RunStats) :
    RetryResult BatchData → RunStats
  | RetryResult.succeeded _ _ data => batch.foldl (batchDiseaseStep data) st
  | RetryResult.exhausted _ _ => { st with failed := st.failed + batch.length }

/-- The individual-mode run: one retry loop per tracked disease, in catalog
order. `fetch i k` is the outcome of attempt `k` for the `i`-th disease. -/
def runIndividual (maxRetries rateDelay errDelay : Nat)
    (fetch : Nat → Nat → Except (List Nat) (List TSRecord × List RegRecord)) : RunStats :=
  (List.range TRACKED_DISEASES.length).foldl
    (fun st i => individualUnitStep st (retryRun maxRetries rateDelay errDelay (fetch i)))
    RunStats.init

/-- The batch-mode run: one retry loop per batch of `BATCH_SIZE` diseases.
`fetch i k` is the outcome of attempt `k` for the `i`-th batch. -/
def runBatch (maxRetries rateDelay errDelay : Nat)
    (fetch : Nat → Nat → Except (List Nat) BatchData) : RunStats :=
  (batchesOf TRACKED_DISEASES BATCH_SIZE).enum.foldl
    (fun st p => batchUnitStep p.2 st (retryRun maxRetries rateDelay errDelay (fetch p.1)))
    RunStats.init

/-- The process exit signal: `exit(1)` when `successful == 0`, the implicit
success exit otherwise. -/
def exitSignal (st : RunStats) : Nat :=
  if st.successful = 0 then 1 else 0

/-! ## Claim theorems about the retry loop and the run -/

/--
C1 (counterexample). With max-retries = 3 and a rate-limited error on every
attempt, the loop makes exactly 3 attempts and exhausts, but it computes only
two sleep delays — base and base*2 (here 300 and 600 with the source's base
of 300) — not the three delays base, base*2, base*4 the claim states: the
third failed attempt exhausts the retries without computing a delay.
-/
theorem retry_delays_counterexample :
    retryRun 3 DELAY_ON_RATE_LIMIT DELAY_ON_ERROR
        (fun _ => (Except.error pat429 : Except (List Nat) (List TSRecord × List RegRecord)))
      = RetryResult.exhausted 3 [300, 600] ∧
    RetryResult.exhausted (α := List TSRecord × List RegRecord) 3 [300, 600] ≠
      RetryResult.exhausted 3 [300, 600, 1200] := by
  decide

/--
C1 (amended). For every query unit, with max-retries = 3 and the provider
raising a rate-limit-classified error on every attempt, the retry loop makes
exactly 3 attempts and then reports the unit exhausted (counted as failed),
and the computed sleep delays before the second and third attempts are base
and base*2, where base is the configured rate-limit delay; no delay is
computed after the final attempt.
-/
theorem retry_exhaustion_spec (base errDelay : Nat) (msg : List Nat) (st : RunStats)
    (h : is_rate_limit msg = true) :
    retryRun 3 base errDelay
        (fun _ => (Except.error msg : Except (List Nat) (List TSRecord × List RegRecord)))
      = RetryResult.exhausted 3 [base, base * 2] ∧
    individualUnitStep st (RetryResult.exhausted 3 [base, base * 2])
      = { st with failed := st.failed + 1 } := by
  constructor
  · have key : retryRun 3 base errDelay
        (fun _ => (Except.error msg : Except (List Nat) (List TSRecord × List RegRecord)))
        = RetryResult.exhausted 3
            [retryDelay base errDelay (is_rate_limit msg) 1,
             retryDelay base errDelay (is_rate_limit msg) 2] := rfl
    rw [key]
    simp [retryDelay, h]
  · rfl

/-- Witness for C1's amended theorem at base 300, error delay 60 and the
message "429". -/
theorem retry_exhaustion_spec_witness :
    retryRun 3 300 60
        (fun _ => (Except.error pat429 : Except (List Nat) (List TSRecord × List RegRecord)))
      = RetryResult.exhausted 3 [300, 300 * 2] ∧
    individualUnitStep RunStats.init (RetryResult.exhausted 3 [300, 300 * 2])
      = { RunStats.init with failed := RunStats.init.failed + 1 } :=
  retry_exhaustion_spec 300 60 pat429 RunStats.init (by decide)

/--
C2. A run signals failure to its invoker (non-zero exit) exactly when its
succeeded count is zero, in both collection modes; concretely, a run in which
the first disease exhausts all retries on rate-limit errors while the other
20 succeed reports 20 succeeded, 1 failed, and still exits 0.
-/
theorem exit_signal_spec (maxRetries rateDelay errDelay : Nat)
    (fetchI : Nat → Nat → Except (List Nat) (List TSRecord × List RegRecord))
    (fetchB : Nat → Nat → Except (List Nat) BatchData) :
    (exitSignal (runIndividual maxRetries rateDelay errDelay fetchI) ≠ 0 ↔
      (runIndividual maxRetries rateDelay errDelay fetchI).successful = 0) ∧
    (exitSignal (runBatch maxRetries rateDelay errDelay fetchB) ≠ 0 ↔
      (runBatch maxRetries rateDelay errDelay fetchB).successful = 0) ∧
    exitSignal (runIndividual MAX_RETRIES DELAY_ON_RATE_LIMIT DELAY_ON_ERROR (fun i _ =>
      if i = 0 then Except.error pat429 else Except.ok ([], []))) = 0 ∧
    (runIndividual MAX_RETRIES DELAY_ON_RATE_LIMIT DELAY_ON_ERROR (fun i _ =>
      if i = 0 then Except.error pat429 else Except.ok ([], []))).successful = 20 ∧
    (runIndividual MAX_RETRIES DELAY_ON_RATE_LIMIT DELAY_ON_ERROR (fun i _ =>
      if i = 0 then Except.error pat429 else Except.ok ([], []))).failed = 1 := by
  refine ⟨?_, ?_, by decide, by decide, by decide⟩
  · unfold exitSignal
    split <;> simp [*]
  · unfold exitSignal
    split <;> simp [*]

/--
C9. In batch mode, a query unit whose fetch raises no error but returns zero
records for every term of the batch terminates the retry loop as a success on
its first attempt, with no delay computed and no retry made.
-/
theorem batch_empty_success (maxRetries rateDelay errDelay : Nat)
    (out : Nat → Except (List Nat) BatchData) (data : BatchData)
    (hmr : 0 < maxRetries) (h0 : out 0 = Except.ok data)
    (hempty : ∀ d, batchGet data d = ([], [])) :
    retryRun maxRetries rateDelay errDelay out = RetryResult.succeeded 1 [] data := by
  obtain ⟨fuel, rfl⟩ : ∃ f, maxRetries = f + 1 := ⟨maxRetries - 1, by omega⟩
  show retryGo (fuel + 1) rateDelay errDelay out 0 (fuel + 1) [] = _
  simp only [retryGo, h0]
  rfl

/-- Witness for C9: max-retries 5 and a fetch returning the empty dicts. -/
theorem batch_empty_success_witness :
    retryRun 5 300 60 (fun _ => (Except.ok ([] : BatchData)))
      = RetryResult.succeeded 1 [] [] :=
  batch_empty_success 5 300 60 _ [] (by decide) rfl (fun _ => rfl)

/--
C10. A batch-mode unit that returns no records for any of its terms updates
neither the succeeded nor the failed count, so a batch-mode run in which
every unit returns empty data ends with succeeded = 0 and the failure exit
signal, while the same all-empty run in individual mode counts every unit as
succeeded (21 of them) and exits with the success signal.
-/
theorem empty_data_mode_asymmetry (st : RunStats) (batch : List String) :
    batchUnitStep batch st (RetryResult.succeeded 1 [] ([] : BatchData)) = st ∧
    (runBatch MAX_RETRIES DELAY_ON_RATE_LIMIT DELAY_ON_ERROR
      (fun _ _ => Except.ok ([] : BatchData))).successful = 0 ∧
    (runBatch MAX_RETRIES DELAY_ON_RATE_LIMIT DELAY_ON_ERROR
      (fun _ _ => Except.ok ([] : BatchData))).failed = 0 ∧
    exitSignal (runBatch MAX_RETRIES DELAY_ON_RATE_LIMIT DELAY_ON_ERROR
      (fun _ _ => Except.ok ([] : BatchData))) = 1 ∧
    (runIndividual MAX_RETRIES DELAY_ON_RATE_LIMIT DELAY_ON_ERROR
      (fun _ _ => Except.ok ([], []))).successful = 21 ∧
    exitSignal (runIndividual MAX_RETRIES DELAY_ON_RATE_LIMIT DELAY_ON_ERROR
      (fun _ _ => Except.ok ([], []))) = 0 := by
  refine ⟨?_, by decide, by decide, by decide, by decide, by decide⟩
  show batch.foldl (batchDiseaseStep []) st = st
  induction batch generalizing st with
  | nil => rfl
  | cons d ds ih =>
    rw [List.foldl_cons]
    have hstep : batchDiseaseStep [] st d = st := rfl
    rw [hstep]
    exact ih st

/-! ## The per-unit pipeline and the upload path (C8) -/

/-- Region records built from the per-region scores of one disease, with the
region name normalized and the run's collection date attached. -/
def buildRegionRecords (disease : String) (collection_date : Int)
    (items : List (List Char × Int)) : List RegRecord :=
  items.map (fun q => ⟨disease, normalize_region_name q.1, none, q.2, collection_date⟩)

/-- `collect_all_data_for_disease`, parametrized over the validator it calls:
the source invokes `validate_data_quality(...)` for its side effect only and
returns the collected records unconditionally. -/
def collect_all_data_for_disease
    (validator : List TSRecord → List RegRecord → Bool)
    (excludeP : Bool) (today exclDays : Int) (disease : String)
    (rows : List SeriesRow) (regionItems : List (List Char × Int))
    (collection_date : Int) : List TSRecord × List RegRecord :=
  let time_series_records := collect_series_points excludeP today exclDays disease rows
  let region_records := buildRegionRecords disease collection_date regionItems
  let _quality := validator time_series_records region_records
  (time_series_records, region_records)

/-- `collect_data_for_batch`, parametrized over the validator, which the
source calls once per disease of the batch, discarding every result. -/
def collect_data_for_batch
    (validator : List TSRecord → List RegRecord → Bool)
    (excludeP : Bool) (today exclDays : Int) (diseases : List String)
    (rows : List BatchRow) (regionTable : String → List (List Char × Int))
    (collection_date : Int) : BatchData :=
  let data : BatchData := diseases.map (fun d =>
    (d, (collect_batch_series_for excludeP today exclDays d rows,
         buildRegionRecords d collection_date (regionTable d))))
  let _quality := diseases.map (fun d => validator (batchGet data d).1 (batchGet data d).2)
  data

/-- The chunked upsert of the upload helpers: batches of 100 records. -/
def upload_chunks (records : List α) : List (List α) :=
  batchesOf records 100

/-- Everything the sink receives across the chunks of one upload call. -/
def uploadedRecords (records : List α) : List α :=
  (upload_chunks records).flatten

/--
C8. Validation never blocks storage: the records a fetched query unit hands
to the sink are exactly the collected (filtered, normalized) records, for any
validator verdict whatsoever — the pipeline's output is invariant under
replacing the validator — and the chunked upload passes every record through
unchanged, so validation neither mutates nor removes records.
-/
theorem validation_never_blocks
    (v1 v2 : List TSRecord → List RegRecord → Bool)
    (excludeP : Bool) (today exclDays : Int) (disease : String) (diseases : List String)
    (rows : List SeriesRow) (brows : List BatchRow)
    (regionItems : List (List Char × Int)) (regionTable : String → List (List Char × Int))
    (collection_date : Int) :
    collect_all_data_for_disease v1 excludeP today exclDays disease rows regionItems collection_date
      = (collect_series_points excludeP today exclDays disease rows,
         buildRegionRecords disease collection_date regionItems) ∧
    collect_all_data_for_disease v1 excludeP today exclDays disease rows regionItems collection_date
      = collect_all_data_for_disease v2 excludeP today exclDays disease rows regionItems collection_date ∧
    collect_data_for_batch v1 excludeP today exclDays diseases brows regionTable collection_date
      = collect_data_for_batch v2 excludeP today exclDays diseases brows regionTable collection_date ∧
    uploadedRecords (collect_all_data_for_disease v1 excludeP today exclDays disease rows
        regionItems collection_date).1
      = (collect_all_data_for_disease v1 excludeP today exclDays disease rows
        regionItems collection_date).1 ∧
    uploadedRecords (collect_all_data_for_disease v1 excludeP today exclDays disease rows
        regionItems collection_date).2
      = (collect_all_data_for_disease v1 excludeP today exclDays disease rows
        regionItems collection_date).2 := by
  refine ⟨rfl, rfl, rfl, ?_, ?_⟩
  · exact batchesOf_join _ 100 (by decide)
  · exact batchesOf_join _ 100 (by decide)
